import Mathlib

/-!
A shallow embedding of the comrade repository's evaluation core.

The repository holds two historical copies of the evaluation context:
`crates/comrade-core/src/context.rs` (generic `Context<C, P>` with `domain`,
`branch` and `check_eq`) and `crates/comrade-core/src/lib.rs` (the `Comrade`
wrapper with an unstaged rhai `Engine`, plus a `Context` lacking `domain`).
The operator bodies (`push`, `check_signature`, `check_preimage`, `succeed`,
`fail`, `check_fail`) are line-for-line identical in the two copies, so a
single `Context` type is embedded here, following `context.rs` (the superset).

External collaborators (the rhai expression engine and the multiformats
crates) are black boxes per the spec; they are represented by oracle
parameters (`Crypto`, a `compile` function) so every embedded definition stays
executable.
-/

/-- Modelled from the spec: `storage/value.rs` is referenced by the source but
absent from the tree.  Spec section 3: a tagged union with four variants; `Bin`
is opaque bytes with a hint, `Str` is text with a hint, `Success` carries the
check-counter snapshot, `Failure` carries a message.  Bytes are modelled as
`List Nat`. -/
inductive Value where
  | Bin (hint : String) (data : List Nat)
  | Str (hint : String) (data : String)
  | Success (count : Nat)
  | Failure (message : String)
deriving DecidableEq, Repr

/-- Modelled from the spec: `storage/stack.rs` is referenced by the source but
absent from the tree.  Spec section 4.2: a LIFO of Values with
push/pop/top/peek/len/is_empty. -/
structure Stk where
  items : List Value
deriving DecidableEq, Repr

def Stk.push (s : Stk) (v : Value) : Stk :=
  { items := v :: s.items }

def Stk.pop (s : Stk) : Option Value × Stk :=
  match s.items with
  | [] => (none, { items := [] })
  | v :: rest => (some v, { items := rest })

def Stk.top (s : Stk) : Option Value :=
  s.items.head?

def Stk.peek (s : Stk) (n : Nat) : Option Value :=
  s.items.get? n

def Stk.len (s : Stk) : Nat :=
  s.items.length

def Stk.isEmpty (s : Stk) : Bool :=
  s.items.isEmpty

/-- The key-value capability of `storage/pairs.rs`; the concrete store
`ContextPairs` wraps a `HashMap<String, Value>`, embedded here as its
extensional semantics: a function from keys to optional values. -/
def Pairs : Type := String → Option Value

def Pairs.get (p : Pairs) (key : String) : Option Value :=
  p key

def Pairs.put (p : Pairs) (key : String) (value : Value) : Pairs :=
  fun k => if k = key then some value else p k

def Pairs.empty : Pairs :=
  fun _ => none

/-- UTF-8 byte encoding of a string (`str::as_bytes` in the source). -/
def strBytes (s : String) : List Nat :=
  s.toUTF8.toList.map (fun b => b.toNat)

/-- A decoded multihash: a codec tag together with digest bytes; compared
structurally, as the `PartialEq` on the source's `Multihash` is. -/
structure Multihash where
  codec : Nat
  digest : List Nat
deriving DecidableEq, Repr

/-- A decoded multikey, opaque to the core: identified with its byte content. -/
def Multikey : Type := List Nat

/-- A decoded multisig, opaque to the core: identified with its byte content. -/
def Multisig : Type := List Nat

/-- Oracle bundle for the multiformats crates (multikey, multisig, multihash),
which the spec treats as opaque verifier capabilities.  Each field mirrors one
fallible call made by the check operators. -/
structure Crypto where
  /-- Source `Multikey::try_from(&[u8])` -/
  decodeMultikey : List Nat → Except String Multikey
  /-- Source `Multisig::try_from(&[u8])` -/
  decodeMultisig : List Nat → Except String Multisig
  /-- Source `Multikey::verify_view()` -/
  verifyView : Multikey → Except String Unit
  /-- Source `verify_view.verify(&sig, Some(message))` -/
  verify : Multikey → Multisig → List Nat → Except String Unit
  /-- Source `Multihash::try_from(&[u8])` -/
  decodeMultihash : List Nat → Except String Multihash
  /-- Source `mh::Builder::new_from_bytes(codec, data)` followed by `try_build()`;
  the source's two error points both land in `check_fail`, so they are
  collapsed into one `Except`. -/
  hashWith : Nat → List Nat → Except String Multihash

/-- The evaluation context of `context.rs` (the `lib.rs` copy omits
`domain`). -/
structure Context where
  current : Pairs
  proposed : Pairs
  check_count : Nat
  rstack : Stk
  pstack : Stk
  domain : String

/-- Source `Context::new`: fresh stacks, zero counter, domain `"/"`. -/
def Context.new (current proposed : Pairs) : Context :=
  { current := current
    proposed := proposed
    check_count := 0
    rstack := { items := [] }
    pstack := { items := [] }
    domain := ("/") }

/-- Source `Context::fail`: push a `Failure` marker onto `rstack` and return false.
Does not touch `check_count`. -/
def Context.fail (ctx : Context) (err : String) : Bool × Context :=
  (false, { ctx with rstack := ctx.rstack.push (Value.Failure err) })

/-- Source `Context::check_fail`: increment `check_count`, then `fail`. -/
def Context.check_fail (ctx : Context) (err : String) : Bool × Context :=
  Context.fail { ctx with check_count := ctx.check_count + 1 } err

/-- Source `Context::succeed`: push `Success(check_count)` onto `rstack` and return
true. -/
def Context.succeed (ctx : Context) : Bool × Context :=
  (true, { ctx with rstack := ctx.rstack.push (Value.Success ctx.check_count) })

/-- Source `Context::push`: look the key up in `current`; on a hit push the value
onto `pstack` and return true; on a miss `fail` (not `check_fail`). -/
def Context.push (ctx : Context) (key : String) : Bool × Context :=
  match ctx.current.get key with
  | some v => (true, { ctx with pstack := ctx.pstack.push v })
  | none => ctx.fail ("kvp missing key: " ++ key)

/-- Source `Context::branch`: the literal concatenation of the domain and the key;
takes the context by shared reference in the source, so it is embedded as a
function returning only the resulting string. -/
def Context.branch (ctx : Context) (key : String) : String :=
  ctx.domain ++ key

/-- Straight-line remainder of `Context::check_signature` after the pubkey
and message have been obtained (the source reaches this point by early
returns). -/
def Context.check_signature_rest (crypto : Crypto) (ctx : Context)
    (key msg : String) (pubkey : Multikey) (message : List Nat) :
    Bool × Context :=
  if ctx.pstack.len < 1 then
    ctx.check_fail ("not enough parameters (" ++ toString ctx.pstack.len
      ++ (") on the stack for check_signature (") ++ key ++ (", ") ++ msg ++ (")"))
  else
    match ctx.pstack.top with
    | some (Value.Bin _ data) =>
      match crypto.decodeMultisig data with
      | Except.ok sig =>
        match crypto.verifyView pubkey with
        | Except.ok _ =>
          match crypto.verify pubkey sig message with
          | Except.ok _ => ({ ctx with pstack := (ctx.pstack.pop).2 }).succeed
          | Except.error e => ctx.check_fail e
        | Except.error e => ctx.check_fail e
      | Except.error e => ctx.check_fail e
    | _ => ctx.check_fail ("no multisig on stack")

/-- Source `Context::check_signature`: fetch the multikey from `current[key]`, the
message from `proposed[msg]`, the signature from the top of `pstack`; verify;
pop and `succeed` on success, `check_fail` on every failure. -/
def Context.check_signature (crypto : Crypto) (ctx : Context)
    (key msg : String) : Bool × Context :=
  match ctx.current.get key with
  | some (Value.Bin _ data) =>
    match crypto.decodeMultikey data with
    | Except.ok pubkey =>
      match ctx.proposed.get msg with
      | some (Value.Bin _ mdata) =>
        Context.check_signature_rest crypto ctx key msg pubkey mdata
      | some (Value.Str _ sdata) =>
        Context.check_signature_rest crypto ctx key msg pubkey (strBytes sdata)
      | some _ => ctx.check_fail ("unexpected value type associated with " ++ msg)
      | none => ctx.check_fail ("no message associated with " ++ msg)
    | Except.error e => ctx.check_fail e
  | some _ => ctx.check_fail ("unexpected value type associated with " ++ key)
  | none => ctx.check_fail ("no multikey associated with " ++ key)

/-- Final comparison step of `Context::check_preimage`. -/
def Context.check_preimage_fin (ctx : Context) (hash preimage : Multihash) :
    Bool × Context :=
  if hash = preimage then ({ ctx with pstack := (ctx.pstack.pop).2 }).succeed
  else ctx.check_fail ("preimage doesn't match")

/-- Straight-line remainder of `Context::check_preimage` after the stored
multihash has been decoded. -/
def Context.check_preimage_rest (crypto : Crypto) (ctx : Context)
    (hash : Multihash) : Bool × Context :=
  if ctx.pstack.len < 1 then
    ctx.check_fail ("not enough parameters on the stack for check_preimage: "
      ++ toString ctx.pstack.len)
  else
    match ctx.pstack.top with
    | some (Value.Bin _ data) =>
      match crypto.hashWith hash.codec data with
      | Except.ok preimage => ctx.check_preimage_fin hash preimage
      | Except.error e => ctx.check_fail e
    | some (Value.Str _ data) =>
      match crypto.hashWith hash.codec (strBytes data) with
      | Except.ok preimage => ctx.check_preimage_fin hash preimage
      | Except.error e => ctx.check_fail e
    | _ => ctx.check_fail ("no multihash data on stack")

/-- Source `Context::check_preimage`: decode `current[key]` as a multihash, hash the
top of `pstack` with the same codec, compare structurally; pop and `succeed`
on a match, `check_fail` otherwise. -/
def Context.check_preimage (crypto : Crypto) (ctx : Context) (key : String) :
    Bool × Context :=
  match ctx.current.get key with
  | some (Value.Bin _ data) =>
    match crypto.decodeMultihash data with
    | Except.ok hash => Context.check_preimage_rest crypto ctx hash
    | Except.error e => ctx.check_fail e
  | some _ => ctx.check_fail ("unexpected value type associated with " ++ key)
  | none => ctx.check_fail ("kvp missing key: " ++ key)

/-- Final comparison step of `Context::check_eq`. -/
def Context.check_eq_fin (ctx : Context) (value stack_value : List Nat) :
    Bool × Context :=
  if value = stack_value then ({ ctx with pstack := (ctx.pstack.pop).2 }).succeed
  else ctx.check_fail ("values don't match")

/-- Straight-line remainder of `Context::check_eq` after the stored value has
been coerced to bytes. -/
def Context.check_eq_rest (ctx : Context) (value : List Nat) : Bool × Context :=
  if ctx.pstack.isEmpty then
    ctx.check_fail ("not enough parameters on the stack for check_eq: "
      ++ toString ctx.pstack.len)
  else
    match ctx.pstack.top with
    | some (Value.Bin _ data) => ctx.check_eq_fin value data
    | some (Value.Str _ data) => ctx.check_eq_fin value (strBytes data)
    | _ => ctx.check_fail ("no value on the stack")

/-- Source `Context::check_eq`: coerce `current[key]` and the top of `pstack` to
bytes and compare; pop and `succeed` on a match, `check_fail` otherwise.  The
catch-all arm of the first lookup covers both a missing key and a
wrong-variant value, as in the source. -/
def Context.check_eq (ctx : Context) (key : String) : Bool × Context :=
  match ctx.current.get key with
  | some (Value.Bin _ data) => ctx.check_eq_rest data
  | some (Value.Str _ data) => ctx.check_eq_rest (strBytes data)
  | _ => ctx.check_fail ("kvp missing key: " ++ key)

/-- A host operator call as the rhai engine can issue it; `branch` is never
registered in `lib.rs`, so it has no instruction. -/
inductive Instr where
  | push (key : String)
  | check_signature (key msg : String)
  | check_preimage (key : String)
  | check_eq (key : String)
deriving DecidableEq, Repr

/-- The name under which each operator closure is registered with
`Engine::register_fn`. -/
def Instr.name : Instr → String
  | Instr.push _ => ("push")
  | Instr.check_signature _ _ => ("check_signature")
  | Instr.check_preimage _ => ("check_preimage")
  | Instr.check_eq _ => ("check_eq")

/-- Dispatch of a host call to the corresponding `Context` method, as the
registered closures do through the shared `Arc<Mutex<Context>>`. -/
def Instr.exec (crypto : Crypto) (i : Instr) (ctx : Context) : Bool × Context :=
  match i with
  | Instr.push key => ctx.push key
  | Instr.check_signature key msg => Context.check_signature crypto ctx key msg
  | Instr.check_preimage key => Context.check_preimage crypto ctx key
  | Instr.check_eq key => Context.check_eq ctx key

/-- Modelled from the spec: the rhai engine is a black box; section 6 requires
only named host calls, short-circuit boolean or, and statement sequences whose
value is the last statement's.  `failE` marks a point where the engine itself
raises at run time (for example an unresolved call). -/
inductive Expr where
  | call (i : Instr)
  | seq (a b : Expr)
  | orE (a b : Expr)
  | failE (e : String)
deriving DecidableEq, Repr

/-- The registration table of the rhai `Engine`: the names passed to
`register_fn`, in order. -/
structure Engine where
  registered : List String
deriving DecidableEq, Repr

/-- Modelled from the spec: evaluation of an expression drives the registered
operator closures against the shared context; a call to an unregistered name
is a run-time engine error; the context mutations already performed persist
across an engine error because the closures mutate the shared
`Arc<Mutex<Context>>` in place. -/
def evalExpr (crypto : Crypto) (eng : Engine) :
    Expr → Context → Except String Bool × Context
  | Expr.call i, ctx =>
    if i.name ∈ eng.registered then
      (Except.ok (Instr.exec crypto i ctx).1, (Instr.exec crypto i ctx).2)
    else
      (Except.error ("function not found: " ++ i.name), ctx)
  | Expr.seq a b, ctx =>
    match evalExpr crypto eng a ctx with
    | (Except.ok _, ctx1) => evalExpr crypto eng b ctx1
    | (Except.error e, ctx1) => (Except.error e, ctx1)
  | Expr.orE a b, ctx =>
    match evalExpr crypto eng a ctx with
    | (Except.ok true, ctx1) => (Except.ok true, ctx1)
    | (Except.ok false, ctx1) => evalExpr crypto eng b ctx1
    | (Except.error e, ctx1) => (Except.error e, ctx1)
  | Expr.failE e, ctx => (Except.error e, ctx)

/-- A compiled script: the named functions it defines (rhai `AST`). -/
def Ast : Type := List (String × Expr)

/-- Source `call_fn`'s lookup of the requested function in the compiled AST. -/
def lookupFn (ast : Ast) (func : String) : Option Expr :=
  match ast.find? (fun p => p.1 == func) with
  | some p => some p.2
  | none => none

/-- The `Comrade` struct of `lib.rs`: shared context, rhai engine, optional
loaded script. -/
structure Comrade where
  context : Context
  engine : Engine
  script : Option String

/-- Source `impl Default for Comrade` (`lib.rs` lines 26-66): one fresh context, and
`register_fn` called for `check_signature`, `push` and `check_preimage` — all
three at construction, with no staging; `branch` and `check_eq` are never
registered. -/
def Comrade.default : Comrade :=
  { context := Context.new Pairs.empty Pairs.empty
    engine := { registered := [("check_signature"), ("push"), ("check_preimage")] }
    script := none }

/-- Source `Comrade::new`, which just delegates to `default`. -/
def Comrade.new : Comrade :=
  Comrade.default

/-- A key-value pair as fed to `Comrade::put`. -/
structure Kvp where
  key : String
  value : Value

/-- Source `Comrade::put`: `proposed` takes the old `current` by `mem::take` (which
leaves an empty map behind), then the supplied pairs are inserted into the
now-empty `current` in order. -/
def Comrade.put (c : Comrade) (kvps : List Kvp) : Comrade :=
  { c with context :=
      { c.context with
        proposed := c.context.current
        current := kvps.foldl (fun p kvp => p.put kvp.key kvp.value) Pairs.empty } }

/-- Source `Comrade::load`: store the script text. -/
def Comrade.load (c : Comrade) (script : String) : Comrade :=
  { c with script := some script }

/-- Source `Comrade::returns`: a clone of the return stack. -/
def Comrade.returns (c : Comrade) : Stk :=
  c.context.rstack

/-- Source `Comrade::run`: error when no script is loaded; otherwise compile (a
black-box rhai step, passed as an oracle), look the function up, and evaluate
it against the shared context.  All engine errors are surfaced to the caller;
the context keeps whatever the operators did before the error. -/
def Comrade.run (crypto : Crypto) (compile : String → Except String Ast)
    (c : Comrade) (func : String) : Except String Bool × Comrade :=
  match c.script with
  | none => (Except.error ("no script loaded"), c)
  | some script =>
    match compile script with
    | Except.error e => (Except.error e, c)
    | Except.ok ast =>
      match lookupFn ast func with
      | none => (Except.error ("function not found: " ++ func), c)
      | some body =>
        match evalExpr crypto c.engine body c.context with
        | (Except.ok b, ctx1) => (Except.ok b, { c with context := ctx1 })
        | (Except.error e, ctx1) => (Except.error e, { c with context := ctx1 })

/-- Modelled from the spec: `Evaluator<Unlocked>::try_lock` is absent from the
source tree (the staged evaluator appears only in commented-out tests), so it
is modelled from spec section 4.5: (1) deep-clone the Context, (2) evaluate
the lock expression against the clone, (3) return the clone's `rstack` top,
(4) discard the clone, leaving the caller's context untouched. -/
def tryLock (crypto : Crypto) (eng : Engine) (ctx : Context) (lockExpr : Expr) :
    Except String (Option Value) × Context :=
  match evalExpr crypto eng lockExpr ctx with
  | (Except.ok _, clone1) => (Except.ok clone1.rstack.top, ctx)
  | (Except.error e, _) => (Except.error e, ctx)

/-- Specification-side lookup into a list of key-value pairs where a later
entry overwrites an earlier one under the same key. -/
def kvpsLookup : List Kvp → String → Option Value
  | [], _ => none
  | kvp :: rest, k =>
    match kvpsLookup rest k with
    | some v => some v
    | none => if kvp.key = k then some kvp.value else none

/-- Oracle on which every decode and verification fails: exercises the
failure paths of the check operators. -/
def noCrypto : Crypto :=
  { decodeMultikey := fun _ => Except.error ("bad multikey")
    decodeMultisig := fun _ => Except.error ("bad multisig")
    verifyView := fun _ => Except.error ("no verify view")
    verify := fun _ _ _ => Except.error ("invalid signature")
    decodeMultihash := fun _ => Except.error ("bad multihash")
    hashWith := fun _ _ => Except.error ("bad codec") }

/-- Oracle on which every decode and verification succeeds, with the identity
as the hash: exercises the success paths of the check operators. -/
def okCrypto : Crypto :=
  { decodeMultikey := fun b => Except.ok b
    decodeMultisig := fun b => Except.ok b
    verifyView := fun _ => Except.ok ()
    verify := fun _ _ _ => Except.ok ()
    decodeMultihash := fun b => Except.ok { codec := 0, digest := b }
    hashWith := fun c b => Except.ok { codec := c, digest := b } }

/-- A store holding one binary value under `"/k"`. -/
def store1 : Pairs :=
  fun k => if k = ("/k") then some (Value.Bin ("") [1, 2, 3]) else none

/-- A context on which all three check operators succeed under `okCrypto`:
`current` and `proposed` both hold `Bin [1,2,3]` at `"/k"`, and the same bytes
sit on top of `pstack`. -/
def ctxSig : Context :=
  { current := store1
    proposed := store1
    check_count := 0
    rstack := { items := [] }
    pstack := { items := [Value.Bin ("") [1, 2, 3]] }
    domain := ("/") }

/-- A context with the domain of spec scenario 6. -/
def ctxForks : Context :=
  { current := Pairs.empty
    proposed := Pairs.empty
    check_count := 0
    rstack := { items := [] }
    pstack := { items := [] }
    domain := ("/forks/child") }

/-- A Comrade with no loaded script. -/
def cNoScript : Comrade :=
  Comrade.default

/-- A script body that first runs a (failing) `push` host call and then hits a
run-time engine error, as a rhai script does when it calls an undefined
function after some host calls already ran. -/
def body7 : Expr :=
  Expr.seq (Expr.call (Instr.push ("/nope"))) (Expr.failE ("undefined function: zot"))

/-- A Comrade with an empty context and a loaded script text. -/
def cex7 : Comrade :=
  { context := Context.new Pairs.empty Pairs.empty
    engine := Comrade.default.engine
    script := some ("s") }

/-- A compile oracle producing one function `f` with body `body7`. -/
def compile7 : String → Except String Ast :=
  fun _ => Except.ok [(("f"), body7)]

/-- A compile oracle that always fails, as rhai does on a syntax error. -/
def compErr : String → Except String Ast :=
  fun _ => Except.error ("parse error")

/-- A check operator run ended in the success bookkeeping: the consumed
witness was popped and `succeed` was called on the remaining state. -/
abbrev CheckSucceeded (ctx : Context) (r : Bool × Context) : Prop :=
  ∃ v rest, ctx.pstack.items = v :: rest ∧
    r = Context.succeed { ctx with pstack := { items := rest } }

/-- A check operator run ended in `check_fail` with some message. -/
abbrev CheckFailed (ctx : Context) (r : Bool × Context) : Prop :=
  ∃ e, r = ctx.check_fail e

/-- Every check operator terminates through exactly one of the two
bookkeeping helpers. -/
abbrev CheckShape (ctx : Context) (r : Bool × Context) : Prop :=
  CheckSucceeded ctx r ∨ CheckFailed ctx r

theorem top_shape {s : Stk} {v : Value} (h : s.top = some v) :
    ∃ rest, s.items = v :: rest ∧ (s.pop).2 = { items := rest } := by
  obtain ⟨items⟩ := s
  cases items with
  | nil => simp [Stk.top] at h
  | cons a rest =>
    simp [Stk.top] at h
    subst h
    exact ⟨rest, rfl, rfl⟩

theorem check_sig_rest_shape (crypto : Crypto) (ctx : Context)
    (key msg : String) (pubkey : Multikey) (message : List Nat) :
    CheckShape ctx (Context.check_signature_rest crypto ctx key msg pubkey message) := by
  unfold Context.check_signature_rest
  split
  · exact Or.inr ⟨_, rfl⟩
  · split
    all_goals try exact Or.inr ⟨_, rfl⟩
    split
    all_goals try exact Or.inr ⟨_, rfl⟩
    split
    all_goals try exact Or.inr ⟨_, rfl⟩
    split
    all_goals try exact Or.inr ⟨_, rfl⟩
    obtain ⟨rest, hitems, hpop⟩ := top_shape (by assumption)
    rw [hpop]
    exact Or.inl ⟨_, rest, hitems, rfl⟩

theorem check_signature_shape (crypto : Crypto) (ctx : Context)
    (key msg : String) :
    CheckShape ctx (Context.check_signature crypto ctx key msg) := by
  unfold Context.check_signature
  split
  all_goals try exact Or.inr ⟨_, rfl⟩
  split
  all_goals try exact Or.inr ⟨_, rfl⟩
  split
  all_goals try exact Or.inr ⟨_, rfl⟩
  all_goals exact check_sig_rest_shape _ _ _ _ _ _

theorem check_preimage_fin_shape {ctx : Context} {v : Value}
    (h : ctx.pstack.top = some v) (hash preimage : Multihash) :
    CheckShape ctx (ctx.check_preimage_fin hash preimage) := by
  unfold Context.check_preimage_fin
  split
  · obtain ⟨rest, hitems, hpop⟩ := top_shape h
    rw [hpop]
    exact Or.inl ⟨_, rest, hitems, rfl⟩
  · exact Or.inr ⟨_, rfl⟩

theorem check_preimage_rest_shape (crypto : Crypto) (ctx : Context)
    (hash : Multihash) :
    CheckShape ctx (Context.check_preimage_rest crypto ctx hash) := by
  unfold Context.check_preimage_rest
  split
  · exact Or.inr ⟨_, rfl⟩
  · split
    all_goals try exact Or.inr ⟨_, rfl⟩
    all_goals split
    all_goals try exact Or.inr ⟨_, rfl⟩
    all_goals exact check_preimage_fin_shape (by assumption) _ _

theorem check_preimage_shape (crypto : Crypto) (ctx : Context) (key : String) :
    CheckShape ctx (Context.check_preimage crypto ctx key) := by
  unfold Context.check_preimage
  split
  all_goals try exact Or.inr ⟨_, rfl⟩
  split
  all_goals try exact Or.inr ⟨_, rfl⟩
  exact check_preimage_rest_shape _ _ _

theorem check_eq_fin_shape {ctx : Context} {v : Value}
    (h : ctx.pstack.top = some v) (value sv : List Nat) :
    CheckShape ctx (ctx.check_eq_fin value sv) := by
  unfold Context.check_eq_fin
  split
  · obtain ⟨rest, hitems, hpop⟩ := top_shape h
    rw [hpop]
    exact Or.inl ⟨_, rest, hitems, rfl⟩
  · exact Or.inr ⟨_, rfl⟩

theorem check_eq_rest_shape (ctx : Context) (value : List Nat) :
    CheckShape ctx (ctx.check_eq_rest value) := by
  unfold Context.check_eq_rest
  split
  · exact Or.inr ⟨_, rfl⟩
  · split
    all_goals try exact Or.inr ⟨_, rfl⟩
    all_goals exact check_eq_fin_shape (by assumption) _ _

theorem check_eq_shape (ctx : Context) (key : String) :
    CheckShape ctx (ctx.check_eq key) := by
  unfold Context.check_eq
  split
  all_goals try exact Or.inr ⟨_, rfl⟩
  all_goals exact check_eq_rest_shape _ _

theorem shape_true {ctx : Context} {r : Bool × Context}
    (h : CheckShape ctx r) (ht : r.1 = true) :
    r.2.rstack.items = Value.Success ctx.check_count :: ctx.rstack.items ∧
    r.2.check_count = ctx.check_count ∧
    r.2.pstack.items.length + 1 = ctx.pstack.items.length := by
  rcases h with ⟨v, rest, hitems, hr⟩ | ⟨e, hr⟩
  · subst hr
    refine ⟨rfl, rfl, ?_⟩
    simp [Context.succeed, hitems]
  · subst hr
    simp [Context.check_fail, Context.fail] at ht

theorem shape_false {ctx : Context} {r : Bool × Context}
    (h : CheckShape ctx r) (hf : r.1 = false) :
    ∃ m, r.2.rstack.items = Value.Failure m :: ctx.rstack.items ∧
      r.2.check_count = ctx.check_count + 1 ∧
      r.2.pstack = ctx.pstack := by
  rcases h with ⟨v, rest, hitems, hr⟩ | ⟨e, hr⟩
  · subst hr
    simp [Context.succeed] at hf
  · subst hr
    exact ⟨e, rfl, rfl, rfl⟩

theorem shape_count {ctx : Context} {r : Bool × Context} (h : CheckShape ctx r) :
    r.2.check_count = ctx.check_count ∨ r.2.check_count = ctx.check_count + 1 := by
  rcases h with ⟨v, rest, hitems, hr⟩ | ⟨e, hr⟩
  · subst hr; exact Or.inl rfl
  · subst hr; exact Or.inr rfl

theorem shape_stores {ctx : Context} {r : Bool × Context} (h : CheckShape ctx r) :
    r.2.current = ctx.current ∧ r.2.proposed = ctx.proposed := by
  rcases h with ⟨v, rest, hitems, hr⟩ | ⟨e, hr⟩
  · subst hr; exact ⟨rfl, rfl⟩
  · subst hr; exact ⟨rfl, rfl⟩

/-- C1: every execution of a check operator (`check_signature`,
`check_preimage`, `check_eq`) that returns true pushes exactly one
`Success(k)` marker onto `rstack` with `k` equal to `check_count` at that
moment, leaves `check_count` unchanged, and pops exactly one witness from
`pstack` (its length decreases by exactly one). -/
theorem c1_check_success_bookkeeping (crypto : Crypto) (ctx : Context)
    (key msg : String) :
    ((Context.check_signature crypto ctx key msg).1 = true →
      (Context.check_signature crypto ctx key msg).2.rstack.items
          = Value.Success ctx.check_count :: ctx.rstack.items ∧
      (Context.check_signature crypto ctx key msg).2.check_count = ctx.check_count ∧
      (Context.check_signature crypto ctx key msg).2.pstack.items.length + 1
          = ctx.pstack.items.length) ∧
    ((Context.check_preimage crypto ctx key).1 = true →
      (Context.check_preimage crypto ctx key).2.rstack.items
          = Value.Success ctx.check_count :: ctx.rstack.items ∧
      (Context.check_preimage crypto ctx key).2.check_count = ctx.check_count ∧
      (Context.check_preimage crypto ctx key).2.pstack.items.length + 1
          = ctx.pstack.items.length) ∧
    ((ctx.check_eq key).1 = true →
      (ctx.check_eq key).2.rstack.items
          = Value.Success ctx.check_count :: ctx.rstack.items ∧
      (ctx.check_eq key).2.check_count = ctx.check_count ∧
      (ctx.check_eq key).2.pstack.items.length + 1 = ctx.pstack.items.length) :=
  ⟨fun ht => shape_true (check_signature_shape crypto ctx key msg) ht,
   fun ht => shape_true (check_preimage_shape crypto ctx key) ht,
   fun ht => shape_true (check_eq_shape ctx key) ht⟩

theorem c1_check_success_bookkeeping_witness :
    (Context.check_signature okCrypto ctxSig ("/k") ("/k")).2.check_count
        = ctxSig.check_count ∧
    (Context.check_preimage okCrypto ctxSig ("/k")).2.check_count
        = ctxSig.check_count ∧
    (ctxSig.check_eq ("/k")).2.rstack.items
        = Value.Success ctxSig.check_count :: ctxSig.rstack.items := by
  have h := c1_check_success_bookkeeping okCrypto ctxSig ("/k") ("/k")
  exact ⟨(h.1 (by decide)).2.1, (h.2.1 (by decide)).2.1, (h.2.2 (by decide)).1⟩

/-- C2: every execution of a check operator that returns false — for any
reason — pushes exactly one `Failure` marker onto `rstack`, increments
`check_count` by exactly one, and leaves `pstack` unchanged. -/
theorem c2_check_failure_bookkeeping (crypto : Crypto) (ctx : Context)
    (key msg : String) :
    ((Context.check_signature crypto ctx key msg).1 = false →
      ∃ m, (Context.check_signature crypto ctx key msg).2.rstack.items
          = Value.Failure m :: ctx.rstack.items ∧
        (Context.check_signature crypto ctx key msg).2.check_count
          = ctx.check_count + 1 ∧
        (Context.check_signature crypto ctx key msg).2.pstack = ctx.pstack) ∧
    ((Context.check_preimage crypto ctx key).1 = false →
      ∃ m, (Context.check_preimage crypto ctx key).2.rstack.items
          = Value.Failure m :: ctx.rstack.items ∧
        (Context.check_preimage crypto ctx key).2.check_count
          = ctx.check_count + 1 ∧
        (Context.check_preimage crypto ctx key).2.pstack = ctx.pstack) ∧
    ((ctx.check_eq key).1 = false →
      ∃ m, (ctx.check_eq key).2.rstack.items
          = Value.Failure m :: ctx.rstack.items ∧
        (ctx.check_eq key).2.check_count = ctx.check_count + 1 ∧
        (ctx.check_eq key).2.pstack = ctx.pstack) :=
  ⟨fun hf => shape_false (check_signature_shape crypto ctx key msg) hf,
   fun hf => shape_false (check_preimage_shape crypto ctx key) hf,
   fun hf => shape_false (check_eq_shape ctx key) hf⟩

theorem c2_check_failure_bookkeeping_witness :
    (Context.check_signature noCrypto ctxSig ("/k") ("/k")).2.check_count
        = ctxSig.check_count + 1 ∧
    (Context.check_preimage noCrypto ctxSig ("/k")).2.check_count
        = ctxSig.check_count + 1 ∧
    (Context.check_eq ctxSig ("/missing")).2.pstack = ctxSig.pstack := by
  obtain ⟨m1, h1a, h1b, h1c⟩ :=
    (c2_check_failure_bookkeeping noCrypto ctxSig ("/k") ("/k")).1 (by decide)
  obtain ⟨m2, h2a, h2b, h2c⟩ :=
    (c2_check_failure_bookkeeping noCrypto ctxSig ("/k") ("/k")).2.1 (by decide)
  obtain ⟨m3, h3a, h3b, h3c⟩ :=
    (c2_check_failure_bookkeeping noCrypto ctxSig ("/missing") ("/k")).2.2 (by decide)
  exact ⟨h1b, h2b, h3c⟩

/-- C3: `push(key)` with the key present in `current` pushes the associated
value onto `pstack`, returns true and leaves `rstack` and `check_count`
unchanged; with the key absent it returns false, pushes exactly one
`Failure("kvp missing key: <key>")` onto `rstack` (through `fail`, so
`check_count` is untouched) and leaves `pstack` unchanged. -/
theorem c3_push_contract (ctx : Context) (key : String) :
    (∀ v, ctx.current.get key = some v →
      (ctx.push key).1 = true ∧
      (ctx.push key).2.pstack.items = v :: ctx.pstack.items ∧
      (ctx.push key).2.rstack = ctx.rstack ∧
      (ctx.push key).2.check_count = ctx.check_count) ∧
    (ctx.current.get key = none →
      (ctx.push key).1 = false ∧
      (ctx.push key).2.rstack.items
          = Value.Failure ("kvp missing key: " ++ key) :: ctx.rstack.items ∧
      (ctx.push key).2.check_count = ctx.check_count ∧
      (ctx.push key).2.pstack = ctx.pstack) := by
  refine ⟨fun v hv => ?_, fun hn => ?_⟩
  · simp [Context.push, hv, Stk.push]
  · simp [Context.push, hn, Context.fail, Stk.push]

theorem c3_push_contract_witness :
    (ctxSig.push ("/k")).2.pstack.items
        = Value.Bin ("") [1, 2, 3] :: ctxSig.pstack.items ∧
    (ctxSig.push ("/nope")).2.rstack.items
        = Value.Failure ("kvp missing key: " ++ ("/nope")) :: ctxSig.rstack.items := by
  have h1 := (c3_push_contract ctxSig ("/k")).1 (Value.Bin ("") [1, 2, 3]) (by decide)
  have h2 := (c3_push_contract ctxSig ("/nope")).2 (by decide)
  exact ⟨h1.2.1, h2.2.1⟩

/-- C8: `check_count` never decreases under any Context operation; `push`,
`fail` and `succeed` leave it exactly unchanged, `check_fail` increments it by
exactly one, and each check operator either leaves it unchanged (success) or
increments it by one (through `check_fail`).  `branch` takes the context by
shared reference (it is embedded as returning only a string), so it cannot
modify the counter at all. -/
theorem c8_check_count_monotone (crypto : Crypto) (ctx : Context)
    (key msg e : String) :
    (ctx.push key).2.check_count = ctx.check_count ∧
    (ctx.fail e).2.check_count = ctx.check_count ∧
    ctx.succeed.2.check_count = ctx.check_count ∧
    (ctx.check_fail e).2.check_count = ctx.check_count + 1 ∧
    ((Context.check_signature crypto ctx key msg).2.check_count = ctx.check_count ∨
      (Context.check_signature crypto ctx key msg).2.check_count = ctx.check_count + 1) ∧
    ((Context.check_preimage crypto ctx key).2.check_count = ctx.check_count ∨
      (Context.check_preimage crypto ctx key).2.check_count = ctx.check_count + 1) ∧
    ((ctx.check_eq key).2.check_count = ctx.check_count ∨
      (ctx.check_eq key).2.check_count = ctx.check_count + 1) := by
  refine ⟨?_, rfl, rfl, rfl,
    shape_count (check_signature_shape crypto ctx key msg),
    shape_count (check_preimage_shape crypto ctx key),
    shape_count (check_eq_shape ctx key)⟩
  cases h : ctx.current.get key <;> simp [Context.push, h, Context.fail]

/-- C9: no operator — `push`, `check_signature`, `check_preimage`,
`check_eq`, `succeed`, `fail`, `check_fail` — ever mutates the `current` or
`proposed` key-value store: both stores are exactly the same mapping after
any such call. -/
theorem c9_stores_immutable (crypto : Crypto) (ctx : Context)
    (key msg e : String) :
    ((ctx.push key).2.current = ctx.current ∧ (ctx.push key).2.proposed = ctx.proposed) ∧
    ((Context.check_signature crypto ctx key msg).2.current = ctx.current ∧
      (Context.check_signature crypto ctx key msg).2.proposed = ctx.proposed) ∧
    ((Context.check_preimage crypto ctx key).2.current = ctx.current ∧
      (Context.check_preimage crypto ctx key).2.proposed = ctx.proposed) ∧
    ((ctx.check_eq key).2.current = ctx.current ∧
      (ctx.check_eq key).2.proposed = ctx.proposed) ∧
    (ctx.succeed.2.current = ctx.current ∧ ctx.succeed.2.proposed = ctx.proposed) ∧
    ((ctx.fail e).2.current = ctx.current ∧ (ctx.fail e).2.proposed = ctx.proposed) ∧
    ((ctx.check_fail e).2.current = ctx.current ∧
      (ctx.check_fail e).2.proposed = ctx.proposed) := by
  refine ⟨?_,
    shape_stores (check_signature_shape crypto ctx key msg),
    shape_stores (check_preimage_shape crypto ctx key),
    shape_stores (check_eq_shape ctx key),
    ⟨rfl, rfl⟩, ⟨rfl, rfl⟩, ⟨rfl, rfl⟩⟩
  cases h : ctx.current.get key <;> simp [Context.push, h, Context.fail]

/-- C10: `branch(k)` is the literal concatenation of the context's domain and
`k`, with no separator inserted; with domain `"/forks/child"`,
`branch("x")` is `"/forks/childx"`.  The source takes the context by shared
reference, so `branch` is embedded as a pure function that produces no new
context state. -/
theorem c10_branch_concat (ctx : Context) (key : String) :
    ctx.branch key = ctx.domain ++ key ∧
    ctxForks.branch ("x") = ("/forks/childx") :=
  ⟨rfl, rfl⟩

theorem foldl_put_get (kvps : List Kvp) (p : Pairs) (k : String) :
    Pairs.get (kvps.foldl (fun q kvp => q.put kvp.key kvp.value) p) k
      = match kvpsLookup kvps k with
        | some v => some v
        | none => p.get k := by
  induction kvps generalizing p with
  | nil => rfl
  | cons kvp rest ih =>
    simp only [List.foldl_cons, kvpsLookup]
    rw [ih]
    cases hrest : kvpsLookup rest k with
    | some v => rfl
    | none =>
      by_cases hk : kvp.key = k
      · simp [Pairs.get, Pairs.put, hk]
      · have hk2 : ¬ k = kvp.key := fun h => hk h.symm
        simp [Pairs.get, Pairs.put, hk, hk2]

/-- C6: after `Comrade::put(kvps)`, the proposed store is exactly the store
that was current before the call (`mem::take`), and the current store holds
exactly the supplied pairs with a later entry overwriting an earlier one
under the same key and nothing from before the call; the old proposed store
is discarded entirely (the result does not depend on it). -/
theorem c6_put_swaps_stores (c : Comrade) (kvps : List Kvp) :
    (c.put kvps).context.proposed = c.context.current ∧
    (∀ k, ((c.put kvps).context.current).get k = kvpsLookup kvps k) ∧
    (∀ q : Pairs,
      Comrade.put { c with context := { c.context with proposed := q } } kvps
        = c.put kvps) := by
  refine ⟨rfl, fun k => ?_, fun q => rfl⟩
  have h := foldl_put_get kvps Pairs.empty k
  exact h.trans (by cases kvpsLookup kvps k <;> rfl)

/-- C5: `try_lock` evaluates the lock expression on a clone of the context
and returns the clone's `rstack` top; the caller's own context is exactly
unchanged by any lock attempt, and a repeated `try_lock` on the evaluator
state left by a first call, with the same lock expression, yields the same
result. -/
theorem c5_tryLock_isolation (crypto : Crypto) (eng : Engine) (ctx : Context)
    (lockExpr : Expr) :
    (tryLock crypto eng ctx lockExpr).2 = ctx ∧
    (tryLock crypto eng (tryLock crypto eng ctx lockExpr).2 lockExpr).1
      = (tryLock crypto eng ctx lockExpr).1 ∧
    (tryLock crypto eng ctx lockExpr).1
      = match (evalExpr crypto eng lockExpr ctx).1 with
        | Except.ok _ => Except.ok ((evalExpr crypto eng lockExpr ctx).2.rstack.top)
        | Except.error e => Except.error e := by
  have h2 : (tryLock crypto eng ctx lockExpr).2 = ctx := by
    unfold tryLock
    split <;> rfl
  refine ⟨h2, by rw [h2], ?_⟩
  unfold tryLock
  cases h : evalExpr crypto eng lockExpr ctx with
  | mk fst snd => cases fst <;> rfl

/-- C4 counterexample: at construction — before any unlock expression has
run — the default Comrade already has the check operator `check_signature`
registered with the expression evaluator, and `branch` is not registered at
all, so it is false that only `push` and `branch` are registered in the
initial stage and that check operators only become available after a stage
transition. -/
theorem c4_initial_stage_counterexample :
    ("check_signature") ∈ Comrade.default.engine.registered ∧
    ¬ ("branch") ∈ Comrade.default.engine.registered := by
  exact ⟨by decide, by decide⟩

/-- C4 amended: the Comrade evaluator of `lib.rs` is unstaged: its `Default`
constructor registers `check_signature`, `push` and `check_preimage` together
(and never `branch`), so the check operators are callable before any unlock
expression has run — a call to them through the freshly constructed engine
dispatches to the context method rather than failing as unregistered. -/
theorem c4_unstaged_registration (crypto : Crypto) (ctx : Context)
    (key msg : String) :
    Comrade.default.engine.registered
        = [("check_signature"), ("push"), ("check_preimage")] ∧
    evalExpr crypto Comrade.default.engine
        (Expr.call (Instr.check_signature key msg)) ctx
      = (Except.ok (Context.check_signature crypto ctx key msg).1,
         (Context.check_signature crypto ctx key msg).2) ∧
    evalExpr crypto Comrade.default.engine
        (Expr.call (Instr.check_preimage key)) ctx
      = (Except.ok (Context.check_preimage crypto ctx key).1,
         (Context.check_preimage crypto ctx key).2) := by
  refine ⟨rfl, ?_, ?_⟩ <;>
    simp [evalExpr, Instr.name, Instr.exec, Comrade.default]

/-- C7 counterexample: with a loaded script whose body performs a `push` of a
missing key and then hits a run-time engine error, `run` returns the engine
error to the caller, yet the context is not unchanged: the `Failure` marker
pushed by the recovered `push` miss is still on `rstack`, because the
operators mutate the shared context in place and `run` performs no rollback. -/
theorem c7_run_error_counterexample :
    (Comrade.run noCrypto compile7 cex7 ("f")).1
        = Except.error ("undefined function: zot") ∧
    ¬ (Comrade.run noCrypto compile7 cex7 ("f")).2.context.rstack
        = cex7.context.rstack := by
  exact ⟨rfl, by decide⟩

/-- C7 amended: `run` returns an error exactly when no script is loaded
(error "no script loaded") or the engine fails to compile the script, find
the requested function, or execute the body; in the no-script,
compile-failure and function-missing cases nothing is pushed to `rstack` and
the Context is exactly unchanged, while an execution failure surfaces the
error but keeps whatever the operators already did to the shared context;
every in-operator failure is recovered locally — a registered operator call
never raises an engine error, it pushes its `Failure` marker and returns
false so expression evaluation continues. -/
theorem c7_run_error_contract (crypto : Crypto)
    (compile : String → Except String Ast) (c : Comrade) (func : String) :
    (c.script = none →
      Comrade.run crypto compile c func = (Except.error ("no script loaded"), c)) ∧
    (∀ s e, c.script = some s → compile s = Except.error e →
      Comrade.run crypto compile c func = (Except.error e, c)) ∧
    (∀ s ast, c.script = some s → compile s = Except.ok ast →
      lookupFn ast func = none →
      Comrade.run crypto compile c func
        = (Except.error ("function not found: " ++ func), c)) ∧
    (∀ s ast body, c.script = some s → compile s = Except.ok ast →
      lookupFn ast func = some body →
      Comrade.run crypto compile c func
        = ((evalExpr crypto c.engine body c.context).1,
           { c with context := (evalExpr crypto c.engine body c.context).2 })) ∧
    (∀ i ctx, Instr.name i ∈ c.engine.registered →
      evalExpr crypto c.engine (Expr.call i) ctx
        = (Except.ok (Instr.exec crypto i ctx).1, (Instr.exec crypto i ctx).2)) := by
  refine ⟨fun h => ?_, fun s e hs hc => ?_, fun s ast hs hc hl => ?_,
    fun s ast body hs hc hl => ?_, fun i ctx hreg => ?_⟩
  · simp [Comrade.run, h]
  · simp [Comrade.run, hs, hc]
  · simp [Comrade.run, hs, hc, hl]
  · simp only [Comrade.run, hs, hc, hl]
    cases h2 : evalExpr crypto c.engine body c.context with
    | mk fst snd => cases fst <;> simp
  · simp [evalExpr, hreg]

theorem c7_run_error_contract_witness :
    Comrade.run noCrypto compile7 cNoScript ("f")
        = (Except.error ("no script loaded"), cNoScript) ∧
    Comrade.run noCrypto compErr cex7 ("f")
        = (Except.error ("parse error"), cex7) ∧
    Comrade.run noCrypto compile7 cex7 ("g")
        = (Except.error ("function not found: " ++ ("g")), cex7) ∧
    Comrade.run noCrypto compile7 cex7 ("f")
        = ((evalExpr noCrypto cex7.engine body7 cex7.context).1,
           { cex7 with context := (evalExpr noCrypto cex7.engine body7 cex7.context).2 }) ∧
    evalExpr noCrypto cex7.engine (Expr.call (Instr.push ("/nope"))) cex7.context
        = (Except.ok (Instr.exec noCrypto (Instr.push ("/nope")) cex7.context).1,
           (Instr.exec noCrypto (Instr.push ("/nope")) cex7.context).2) := by
  refine ⟨(c7_run_error_contract noCrypto compile7 cNoScript ("f")).1 rfl,
    (c7_run_error_contract noCrypto compErr cex7 ("f")).2.1 ("s") ("parse error") rfl rfl,
    (c7_run_error_contract noCrypto compile7 cex7 ("g")).2.2.1 ("s") _ rfl rfl (by decide),
    (c7_run_error_contract noCrypto compile7 cex7 ("f")).2.2.2.1 ("s") _ body7 rfl rfl (by decide),
    (c7_run_error_contract noCrypto compile7 cex7 ("f")).2.2.2.2
      (Instr.push ("/nope")) cex7.context (by decide)⟩
